import Mathlib

/-!
Verification of the bulk ingestion pipeline of `image_embeddings_pipeline`
(`src/pipeline.py`, `ImageEmbeddingPipeline`), with the persistence sink
contract of `src/qdrant_manager.py` (`QdrantManager.upsert_points`).

The embedding is shallow and executable:
* a CSV row's `url` cell is modelled as a `Cell` (the pandas view after
  `row.get('url', '')`: a missing key yields the empty string, a NaN float,
  a non-string value, or an actual string);
* the external download and embed calls are modelled by caller-supplied
  stage functions that may return a value, return `None`, or raise
  (`StageOut`); `process_single_image`'s `try/except` turns a raise into
  `none`, exactly as in the source;
* `asyncio.as_completed` drains task results in completion order: the
  drain is a fold over an arbitrary list `completion` that theorems
  constrain to be a permutation of the scheduled task list;
* `upsert_points` is modelled by a caller-supplied total `persist`
  function returning `Bool` (the source catches every exception and
  returns `False`); the pipeline discards its result;
* the CSV load (`pd.read_csv`, which raises for an unreadable file) and
  the collection setup (`create_collection_if_not_exists`, which
  re-raises any client error) are modelled by caller-supplied `Except`
  outcomes threaded through `process_csv`'s exception channel;
* the semaphore discipline of `process_single_image`
  (`async with download_sem`, `async with embedding_sem`) is modelled
  separately as a small-step transition system, since which task runs
  next is scheduler-dependent.

Embedding vector components are never inspected by the pipeline, so they
are modelled as integers to keep everything decidable.
-/

namespace ImagePipeline

/-- The value found in a row's `url` cell, as seen through
`row.get('url', '')`: a missing key gives `''`, otherwise the raw cell,
which may be a NaN float, some non-string value, or a string. -/
inductive Cell where
  | missing
  | nan
  | nonString
  | str (s : String)
  deriving DecidableEq, Repr

/-- Python's `str.strip()`: leading and trailing whitespace removed,
written over the string's character list. -/
def pyStrip (s : String) : String :=
  ⟨((s.data.dropWhile Char.isWhitespace).reverse.dropWhile Char.isWhitespace).reverse⟩

/-- The guard `pd.isna(url) or not isinstance(url, str) or url.strip() == ''`
from `process_csv` (negated: `true` means the row is scheduled). A missing
key became `''` via `row.get`, so it fails the strip test. -/
def Cell.valid : Cell → Bool
  | .missing => false
  | .nan => false
  | .nonString => false
  | .str s => !(pyStrip s == "")

/-- The string actually handed to `process_single_image`; only `.str`
cells ever reach it (the guard filters the rest). -/
def Cell.getStr : Cell → String
  | .str s => s
  | _ => ""

/-- One CSV row after the `link → url` rename: the fields `process_csv`
reads via `row.get`. -/
structure Row where
  filename : String
  url : Cell
  deriving DecidableEq, Repr

/-- The slicing of `process_csv`:
`if start_from > 0: df = df.iloc[start_from:]` then
`if max_images: df = df.head(max_images)`.
The dataframe keeps its original `RangeIndex`, so `df.iterrows()` yields
each remaining row with its original 0-based position; `rows.enum` models
that index. `max_images = None` and `max_images = 0` are both falsy in
Python, so neither applies the cap. -/
def sliceRows (rows : List Row) (start_from : Nat) (max_images : Option Nat) :
    List (Nat × Row) :=
  let indexed := rows.enum
  let afterStart := if start_from > 0 then indexed.drop start_from else indexed
  match max_images with
  | none => afterStart
  | some m => if m = 0 then afterStart else afterStart.take m

/-- The rows of the slice that pass the url guard and become tasks
(the `tasks.append(task)` branch of the scheduling loop). -/
def tasksOf (items : List (Nat × Row)) : List (Nat × Row) :=
  items.filter (fun ir => ir.2.url.valid)

/-- The rows of the slice rejected by the url guard; each increments
`failure_count` at scheduling time (`self.failure_count += 1; continue`). -/
def schedFailures (items : List (Nat × Row)) : Nat :=
  (items.filter (fun ir => !ir.2.url.valid)).length

/-- Vector components are floats the pipeline never inspects; integers
keep the model decidable. -/
abbrev Embedding := List Int

/-- The Python exceptions the model distinguishes: the `InvalidRangeError`
the spec speaks of, and an ordinary exception with its message. -/
inductive PyErr where
  | invalidRange
  | exc (msg : String)
  deriving DecidableEq, Repr

/-- Outcome of one external stage call (`download_and_encode` or
`EmbeddingGenerator.generate`): a value, a `None` return, or a raised
exception (timeouts raise). -/
inductive StageOut (α : Type) where
  | raised (msg : String)
  | failed
  | ok (a : α)
  deriving DecidableEq, Repr

/-- The two external collaborators as seen by `process_single_image`,
keyed by the item's index so that per-item failure patterns are
expressible: `download idx url` models
`image_processor.download_and_encode(session, url)` for the task of item
`idx`, and `embed idx uri` models
`embedding_generator.generate(session, image_data_uri)`. -/
structure Stages where
  download : Nat → String → StageOut String
  embed : Nat → String → StageOut Embedding

/-- The point built at pipeline.py:57-66 on the success path: `id=idx`,
the vector, and the payload fields (`processed_at`, a wall-clock
timestamp, is outside the model). -/
structure PointStruct where
  id : Nat
  vector : Embedding
  filename : String
  image_url : String
  deriving DecidableEq, Repr

/-- The body of `process_single_image` without its enclosing
`try/except`: a raise from either stage propagates as `.error`, a `None`
return short-circuits to `Option.none`, and success builds the point. -/
def process_single_image_body (st : Stages) (idx : Nat) (filename url : String) :
    Except PyErr (Option PointStruct) :=
  match st.download idx url with
  | .raised msg => .error (.exc msg)
  | .failed => .ok none
  | .ok uri =>
    match st.embed idx uri with
    | .raised msg => .error (.exc msg)
    | .failed => .ok none
    | .ok v => .ok (some { id := idx, vector := v, filename := filename, image_url := url })

/-- `process_single_image`: the `try/except Exception` at pipeline.py:43-71
logs any exception and returns `None`. -/
def process_single_image (st : Stages) (idx : Nat) (filename url : String) :
    Option PointStruct :=
  match process_single_image_body st idx filename url with
  | .error _ => none
  | .ok r => r

/-- State of the completion-drain loop at pipeline.py:171-193:
`success_count`, `failure_count`, `points_buffer`, and the log of
`upsert_points` calls made so far with the `Bool` each returned. -/
structure DrainState where
  success : Nat
  failure : Nat
  buffer : List PointStruct
  persistLog : List (List PointStruct × Bool)
  deriving DecidableEq, Repr

/-- One iteration of `for coro in asyncio.as_completed(tasks)`: a `None`
result increments `failure_count`; otherwise the point is appended to
`points_buffer` and `success_count` incremented, and if the buffer has
reached `batch_size` it is passed whole to `upsert_points` (whose return
value the caller discards) and cleared. -/
def drainStep (batch_size : Nat) (persist : List PointStruct → Bool)
    (s : DrainState) (result : Option PointStruct) : DrainState :=
  match result with
  | none => { s with failure := s.failure + 1 }
  | some p =>
    let buf := s.buffer ++ [p]
    if buf.length ≥ batch_size then
      { s with success := s.success + 1, buffer := [],
               persistLog := s.persistLog ++ [(buf, persist buf)] }
    else
      { s with success := s.success + 1, buffer := buf }

/-- The `if points_buffer: upsert_points(points_buffer)` after the drain
loop (pipeline.py:192-193). -/
def finalFlush (persist : List PointStruct → Bool) (s : DrainState) : DrainState :=
  if s.buffer.isEmpty then s
  else { s with buffer := [],
                persistLog := s.persistLog ++ [(s.buffer, persist s.buffer)] }

/-- What `process_csv` returns and what it sent to the sink: the final
`(success_count, failure_count)` pair and the full sequence of
`upsert_points` calls. -/
structure RunResult where
  success : Nat
  failure : Nat
  persistLog : List (List PointStruct × Bool)
  deriving DecidableEq, Repr

/-- All batches handed to `upsert_points`, in call order. -/
def RunResult.batches (r : RunResult) : List (List PointStruct) :=
  r.persistLog.map Prod.fst

/-- Every point that reached the sink, in persistence order. -/
def RunResult.persisted (r : RunResult) : List PointStruct :=
  r.batches.flatten

/-- The drain loop in the `Except` monad: each completed task's result
comes from the guarded `process_single_image` (its internal `try/except`
already caught any stage exception), so each iteration is itself
exception-free. Written monadically to mirror the `await coro` loop. -/
def drainLoop (batch_size : Nat) (st : Stages) (persist : List PointStruct → Bool) :
    List (Nat × Row) → DrainState → Except PyErr DrainState
  | [], s => .ok s
  | t :: ts, s => do
    let result := process_single_image st t.1 t.2.filename t.2.url.getStr
    drainLoop batch_size st persist ts (drainStep batch_size persist s result)

/-- The whole of `process_csv` (pipeline.py:96-198) as a function of the
outcomes of its external interactions: `load` is what `pd.read_csv` at
line 114 does (raises — e.g. for an unreadable file — or yields the
rows), `setup` is what `create_collection_if_not_exists` at line 131
does (returns, or re-raises the client error it caught:
qdrant_manager.py:19-35), and `completion` is the order in which
`asyncio.as_completed` yields the scheduled tasks (theorems constrain it
to be a permutation of `tasksOf (sliceRows rows start_from max_images)`).
After a successful load the source is sliced; after a successful setup
the url-invalid rows are counted as failures at scheduling time,
completions are drained while batching successes, the final partial batch
is flushed, and `(success_count, failure_count)` is returned. No range
check of any kind is performed: `df.iloc[start_from:]` and `df.head` are
total, and per-item stage exceptions are caught inside
`process_single_image`. -/
def process_csv (batch_size : Nat) (st : Stages) (persist : List PointStruct → Bool)
    (load : Except PyErr (List Row)) (setup : Except PyErr Unit)
    (start_from : Nat) (max_images : Option Nat)
    (completion : List (Nat × Row)) : Except PyErr RunResult := do
  let rows ← load
  let items := sliceRows rows start_from max_images
  let _ ← setup
  let init : DrainState := ⟨0, schedFailures items, [], []⟩
  let s ← drainLoop batch_size st persist completion init
  let s := finalFlush persist s
  return ⟨s.success, s.failure, s.persistLog⟩

/-- The result of one scheduled task once awaited: item `t.1` is the
original row index, the url string is what passed the guard. -/
def taskResult (st : Stages) (t : Nat × Row) : Option PointStruct :=
  process_single_image st t.1 t.2.filename t.2.url.getStr

/-- `process_csv` with its exception channel erased: the same slicing,
scheduling count, drain fold and final flush, as a total function. -/
def runPure (batch_size : Nat) (st : Stages) (persist : List PointStruct → Bool)
    (rows : List Row) (start_from : Nat) (max_images : Option Nat)
    (completion : List (Nat × Row)) : RunResult :=
  let items := sliceRows rows start_from max_images
  let s := completion.foldl (fun s t => drainStep batch_size persist s (taskResult st t))
    ⟨0, schedFailures items, [], []⟩
  let s := finalFlush persist s
  ⟨s.success, s.failure, s.persistLog⟩

theorem drainLoop_eq_foldl (B : Nat) (st : Stages) (p : List PointStruct → Bool) :
    ∀ (ts : List (Nat × Row)) (s : DrainState),
      drainLoop B st p ts s =
        .ok (ts.foldl (fun s t => drainStep B p s (taskResult st t)) s)
  | [], _ => rfl
  | _ :: ts, _ => drainLoop_eq_foldl B st p ts _

/-- Once the CSV load and the collection setup have succeeded, no further
exception surfaces: every stage raise is caught inside
`process_single_image` and slicing is total, so the run computes
`runPure`. -/
theorem process_csv_eq_runPure (B : Nat) (st : Stages) (p : List PointStruct → Bool)
    (rows : List Row) (k : Nat) (m : Option Nat) (completion : List (Nat × Row)) :
    process_csv B st p (.ok rows) (.ok ()) k m completion =
      .ok (runPure B st p rows k m completion) := by
  simp only [process_csv, runPure, drainLoop_eq_foldl]
  rfl

/-- A failing CSV load surfaces its exception to the caller unchanged. -/
theorem process_csv_load_error (B : Nat) (st : Stages) (p : List PointStruct → Bool)
    (e : PyErr) (setup : Except PyErr Unit) (k : Nat) (m : Option Nat)
    (completion : List (Nat × Row)) :
    process_csv B st p (.error e) setup k m completion = .error e := rfl

/-- A failing collection setup surfaces its re-raised exception to the
caller unchanged. -/
theorem process_csv_setup_error (B : Nat) (st : Stages) (p : List PointStruct → Bool)
    (rows : List Row) (e : PyErr) (k : Nat) (m : Option Nat)
    (completion : List (Nat × Row)) :
    process_csv B st p (.ok rows) (.error e) k m completion = .error e := rfl

/-! ### Concrete fixtures for witnesses and counterexamples -/

/-- Stage oracle whose download always returns `None`. -/
def stagesAllFail : Stages := ⟨fun _ _ => .failed, fun _ _ => .failed⟩

/-- Stage oracle whose stages always succeed. -/
def stagesAllOk : Stages := ⟨fun _ _ => .ok "uri", fun _ _ => .ok [1]⟩

/-- A sink that accepts every batch. -/
def persistOk : List PointStruct → Bool := fun _ => true

/-- A row with a syntactically valid url. -/
def sampleRow : Row := ⟨"img", .str "u"⟩

/-! ### General lemmas about the drain fold -/

theorem length_filter_add_length_filter_not {α : Type} (p : α → Bool) (l : List α) :
    (l.filter p).length + (l.filter (fun x => !p x)).length = l.length := by
  induction l with
  | nil => rfl
  | cons a l ih =>
    by_cases h : p a <;> simp only [List.filter, h, Bool.not_true, Bool.not_false,
      List.length_cons] <;> omega

theorem drainStep_success (B : Nat) (p : List PointStruct → Bool) (s : DrainState)
    (r : Option PointStruct) :
    (drainStep B p s r).success = s.success + (if r.isSome then 1 else 0) := by
  cases r <;> simp only [drainStep, Option.isSome] <;> try rfl
  split <;> rfl

theorem drainStep_failure (B : Nat) (p : List PointStruct → Bool) (s : DrainState)
    (r : Option PointStruct) :
    (drainStep B p s r).failure = s.failure + (if r.isSome then 0 else 1) := by
  cases r <;> simp only [drainStep, Option.isSome] <;> try rfl
  split <;> rfl

theorem drainFold_success (B : Nat) (p : List PointStruct → Bool) (st : Stages) :
    ∀ (ts : List (Nat × Row)) (s : DrainState),
      (ts.foldl (fun s t => drainStep B p s (taskResult st t)) s).success =
        s.success + ts.countP (fun t => (taskResult st t).isSome)
  | [], s => by simp
  | t :: ts, s => by
    rw [List.foldl_cons, drainFold_success B p st ts, drainStep_success,
      List.countP_cons]
    by_cases h : (taskResult st t).isSome = true <;> simp [h] <;> omega

theorem drainFold_failure (B : Nat) (p : List PointStruct → Bool) (st : Stages) :
    ∀ (ts : List (Nat × Row)) (s : DrainState),
      (ts.foldl (fun s t => drainStep B p s (taskResult st t)) s).failure =
        s.failure + ts.countP (fun t => (taskResult st t).isNone)
  | [], s => by simp
  | t :: ts, s => by
    rw [List.foldl_cons, drainFold_failure B p st ts, drainStep_failure,
      List.countP_cons]
    cases h : taskResult st t <;> simp [h, Option.isNone] <;> omega

theorem countP_isSome_add_countP_isNone (st : Stages) (l : List (Nat × Row)) :
    l.countP (fun t => (taskResult st t).isSome) +
      l.countP (fun t => (taskResult st t).isNone) = l.length := by
  induction l with
  | nil => rfl
  | cons a l ih =>
    rw [List.countP_cons, List.countP_cons, List.length_cons]
    cases h : taskResult st a <;> simp [h] <;> omega

theorem finalFlush_success (p : List PointStruct → Bool) (s : DrainState) :
    (finalFlush p s).success = s.success := by
  unfold finalFlush; split <;> rfl

theorem finalFlush_failure (p : List PointStruct → Bool) (s : DrainState) :
    (finalFlush p s).failure = s.failure := by
  unfold finalFlush; split <;> rfl

/-! ### C9, C2, C8, C1 -/

/-- C9: `max_images = 0` is falsy in `if max_images:`, so a cap of zero is
ignored exactly like an omitted cap — the slice and the whole run (for
every load and setup outcome) are the ones of `max_images = None`, not a
run over the empty range. -/
theorem zero_cap_ignored_like_no_cap (B : Nat) (st : Stages)
    (p : List PointStruct → Bool) (rows : List Row)
    (load : Except PyErr (List Row)) (setup : Except PyErr Unit) (k : Nat)
    (completion : List (Nat × Row)) :
    sliceRows rows k (some 0) = sliceRows rows k none ∧
    process_csv B st p load setup k (some 0) completion =
      process_csv B st p load setup k none completion :=
  ⟨rfl, rfl⟩

/-- C2 counterexample: with a one-row source and `start_from = 2 > 1`,
`process_csv` does not fail at all — `df.iloc[2:]` is just empty — and the
run returns the normal result `(0, 0)` with no persist call, instead of
surfacing an `InvalidRangeError`. -/
theorem out_of_range_start_does_not_error :
    process_csv 25 stagesAllFail persistOk (.ok [sampleRow]) (.ok ()) 2 none [] =
      .ok ⟨0, 0, []⟩ ∧
    ¬ process_csv 25 stagesAllFail persistOk (.ok [sampleRow]) (.ok ()) 2 none [] =
      .error PyErr.invalidRange := by
  refine ⟨rfl, ?_⟩
  intro h
  rw [process_csv_eq_runPure] at h
  exact Except.noConfusion h

/-- C2 amended: there is no range check: for `start_offset > T` the work
slice is empty, no task is scheduled, and the run returns `(0, 0)`
normally (no exception of any kind is surfaced). -/
theorem out_of_range_start_yields_empty_run (B : Nat) (st : Stages)
    (p : List PointStruct → Bool) (rows : List Row) (k : Nat) (m : Option Nat)
    (completion : List (Nat × Row))
    (hk : rows.length < k)
    (hperm : completion.Perm (tasksOf (sliceRows rows k m))) :
    sliceRows rows k m = [] ∧
    process_csv B st p (.ok rows) (.ok ()) k m completion = .ok ⟨0, 0, []⟩ := by
  have hslice : sliceRows rows k m = [] := by
    have hdrop : rows.enum.drop k = [] := by
      apply List.drop_eq_nil_of_le
      simpa using Nat.le_of_lt hk
    have hpos : k > 0 := Nat.lt_of_le_of_lt (Nat.zero_le _) hk
    unfold sliceRows
    simp only [hpos, if_true, hdrop]
    cases m with
    | none => rfl
    | some mv => split <;> simp
  refine ⟨hslice, ?_⟩
  have hcomp : completion = [] := by
    have := hperm
    rw [hslice] at this
    exact this.eq_nil
  subst hcomp
  rw [process_csv_eq_runPure]
  simp only [runPure, hslice]
  rfl

/-- C2 amended, witness at a concrete input. -/
theorem out_of_range_start_yields_empty_run_witness :
    sliceRows [sampleRow] 2 none = [] ∧
    process_csv 25 stagesAllOk persistOk (.ok [sampleRow]) (.ok ()) 2 none [] =
      .ok ⟨0, 0, []⟩ :=
  out_of_range_start_yields_empty_run 25 stagesAllOk persistOk [sampleRow] 2 none []
    (by decide) (by decide)

/-- C8 counterexample: `process_csv` calls
`create_collection_if_not_exists()` at pipeline.py:131, which logs and
re-raises any client failure (qdrant_manager.py:33-35), and loads the CSV
at line 114, which raises for an unreadable file; either exception
surfaces to the caller and neither is a range error — so "the only
exception it may raise to the caller is the fatal range error" is false
of the code. -/
theorem run_raises_beyond_range_error :
    process_csv 25 stagesAllOk persistOk (.ok [sampleRow])
        (.error (PyErr.exc "qdrant collection setup failed")) 0 none [(0, sampleRow)] =
      .error (PyErr.exc "qdrant collection setup failed") ∧
    process_csv 25 stagesAllOk persistOk (.error (PyErr.exc "no such file"))
        (.ok ()) 0 none [] =
      .error (PyErr.exc "no such file") ∧
    PyErr.exc "qdrant collection setup failed" ≠ PyErr.invalidRange :=
  ⟨rfl, rfl, by decide⟩

/-- C8 amended: per-item stage failures never raise — for every pattern
of stage outcomes, raising stages included, the drain is exception-free,
so a run whose CSV load and collection setup succeed always terminates
with the aggregate `(success_count, failure_count)`; and any exception
the run does surface to its caller is the CSV load's or the collection
setup's re-raised one, thrown before any work item completes. There is
no range error at all. -/
theorem run_raises_only_from_setup (B : Nat) (st : Stages)
    (p : List PointStruct → Bool) (load : Except PyErr (List Row))
    (setup : Except PyErr Unit) (k : Nat) (m : Option Nat)
    (completion : List (Nat × Row)) :
    (∀ rows, load = .ok rows → setup = .ok () →
      process_csv B st p load setup k m completion =
        .ok (runPure B st p rows k m completion)) ∧
    (∀ e, process_csv B st p load setup k m completion = .error e →
      load = .error e ∨ ∃ rows, load = .ok rows ∧ setup = .error e) := by
  cases load with
  | error el =>
    refine ⟨fun rows h => Except.noConfusion h, ?_⟩
    intro e he
    rw [process_csv_load_error] at he
    cases he
    exact Or.inl rfl
  | ok rows' =>
    cases setup with
    | error es =>
      refine ⟨fun rows _ hsu => Except.noConfusion hsu, ?_⟩
      intro e he
      rw [process_csv_setup_error] at he
      cases he
      exact Or.inr ⟨rows', rfl, rfl⟩
    | ok u =>
      cases u
      refine ⟨?_, ?_⟩
      · intro rows h _
        cases h
        exact process_csv_eq_runPure ..
      · intro e he
        rw [process_csv_eq_runPure] at he
        exact Except.noConfusion he

/-- C8 amended, witness: a concrete run whose load and setup succeed
returns the aggregate result. -/
theorem run_raises_only_from_setup_witness :
    process_csv 25 stagesAllOk persistOk (.ok [sampleRow]) (.ok ()) 0 none
        [(0, sampleRow)] =
      .ok (runPure 25 stagesAllOk persistOk [sampleRow] 0 none [(0, sampleRow)]) :=
  (run_raises_only_from_setup 25 stagesAllOk persistOk (.ok [sampleRow]) (.ok ()) 0 none
    [(0, sampleRow)]).1 [sampleRow] rfl rfl

/-- C1: at the end of any run, `success_count + failure_count` equals the
number of rows of the sliced source, whatever the per-item stage outcomes
and the completion order. -/
theorem success_plus_failure_eq_sliced_total (B : Nat) (st : Stages)
    (p : List PointStruct → Bool) (rows : List Row) (k : Nat) (m : Option Nat)
    (completion : List (Nat × Row)) (res : RunResult)
    (hperm : completion.Perm (tasksOf (sliceRows rows k m)))
    (hrun : process_csv B st p (.ok rows) (.ok ()) k m completion = .ok res) :
    res.success + res.failure = (sliceRows rows k m).length := by
  rw [process_csv_eq_runPure] at hrun
  have hres : res = runPure B st p rows k m completion := by
    cases hrun; rfl
  subst hres
  unfold runPure
  simp only [finalFlush_success, finalFlush_failure, drainFold_success, drainFold_failure]
  have hcount := countP_isSome_add_countP_isNone st completion
  have hlen : completion.length = (tasksOf (sliceRows rows k m)).length :=
    hperm.length_eq
  have hpart : (tasksOf (sliceRows rows k m)).length +
      schedFailures (sliceRows rows k m) = (sliceRows rows k m).length := by
    unfold tasksOf schedFailures
    exact length_filter_add_length_filter_not (fun ir : Nat × Row => ir.2.url.valid) _
  omega

/-- C1 witness: a three-row source with one invalid url and one embed
failure still satisfies `success + failure = 3`. -/
theorem success_plus_failure_eq_sliced_total_witness :
    ([(0, sampleRow), (1, sampleRow)] : List (Nat × Row)).Perm
      (tasksOf (sliceRows [sampleRow, sampleRow, ⟨"b", Cell.nan⟩] 0 none)) ∧
    (2 : Nat) + 1 = (sliceRows [sampleRow, sampleRow, ⟨"b", Cell.nan⟩] 0 none).length := by
  have h1 : ([(0, sampleRow), (1, sampleRow)] : List (Nat × Row)).Perm
      (tasksOf (sliceRows [sampleRow, sampleRow, ⟨"b", Cell.nan⟩] 0 none)) := by decide
  have h2 : process_csv 2 stagesAllOk persistOk
      (.ok [sampleRow, sampleRow, ⟨"b", Cell.nan⟩]) (.ok ())
      0 none [(0, sampleRow), (1, sampleRow)] =
        .ok ⟨2, 1, [([⟨0, [1], "img", "u"⟩, ⟨1, [1], "img", "u"⟩], true)]⟩ := rfl
  exact ⟨h1, success_plus_failure_eq_sliced_total 2 stagesAllOk persistOk
    [sampleRow, sampleRow, ⟨"b", Cell.nan⟩] 0 none [(0, sampleRow), (1, sampleRow)]
    ⟨2, 1, [([⟨0, [1], "img", "u"⟩, ⟨1, [1], "img", "u"⟩], true)]⟩ h1 h2⟩

/-! ### C3: batch flush schedule -/

/-- The length of each batch handed to the sink, in call order. -/
def batchSizes (log : List (List PointStruct × Bool)) : List Nat :=
  log.map (fun pr => pr.1.length)

/-- Drain-loop batching invariant for `batch_size = B ≥ 1`: every flushed
batch was full (exactly `B` artifacts), and the buffer holds the
not-yet-flushed successes, fewer than `B` of them. -/
def BatchInv (B : Nat) (s : DrainState) : Prop :=
  s.success = B * s.persistLog.length + s.buffer.length ∧
  batchSizes s.persistLog = List.replicate s.persistLog.length B ∧
  s.buffer.length < B

theorem drainStep_batchInv (B : Nat) (p : List PointStruct → Bool)
    (s : DrainState) (r : Option PointStruct) (hB : 1 ≤ B) (h : BatchInv B s) :
    BatchInv B (drainStep B p s r) := by
  obtain ⟨h1, h2, h3⟩ := h
  cases r with
  | none => exact ⟨h1, h2, h3⟩
  | some pt =>
    unfold drainStep
    simp only
    by_cases hge : (s.buffer ++ [pt]).length ≥ B
    · rw [if_pos hge]
      rw [List.length_append, List.length_singleton] at hge
      have hbl : s.buffer.length + 1 = B := by omega
      have hlenB : (s.buffer ++ [pt]).length = B := by
        rw [List.length_append, List.length_singleton]; exact hbl
      refine ⟨?_, ?_, hB⟩
      · dsimp only
        rw [List.length_append, List.length_singleton, List.length_nil, Nat.mul_succ]
        omega
      · dsimp only
        unfold batchSizes at h2 ⊢
        rw [List.map_append, h2, List.length_append, List.length_singleton,
          List.replicate_succ']
        dsimp only [List.map_cons, List.map_nil]
        rw [hlenB]
    · rw [if_neg hge]
      rw [List.length_append, List.length_singleton] at hge
      refine ⟨?_, h2, ?_⟩
      · dsimp only
        rw [List.length_append, List.length_singleton]
        omega
      · dsimp only
        rw [List.length_append, List.length_singleton]
        omega

theorem drainFold_batchInv (B : Nat) (p : List PointStruct → Bool) (st : Stages)
    (hB : 1 ≤ B) :
    ∀ (ts : List (Nat × Row)) (s : DrainState), BatchInv B s →
      BatchInv B (ts.foldl (fun s t => drainStep B p s (taskResult st t)) s)
  | [], _, h => h
  | _ :: ts, s, h =>
    drainFold_batchInv B p st hB ts _ (drainStep_batchInv B p s _ hB h)

/-- C3: for a run with `batch_size = B ≥ 1` ending with `S` successes, the
sink is called exactly `⌊S/B⌋` times with a full batch of exactly `B`
artifacts, plus one final call with the `S mod B` remaining artifacts when
`S mod B ≠ 0`, and no final partial call when `S mod B = 0`. -/
theorem batch_flush_schedule (B : Nat) (st : Stages) (p : List PointStruct → Bool)
    (rows : List Row) (k : Nat) (m : Option Nat) (completion : List (Nat × Row))
    (res : RunResult) (hB : 1 ≤ B)
    (hrun : process_csv B st p (.ok rows) (.ok ()) k m completion = .ok res) :
    res.batches.map List.length =
      List.replicate (res.success / B) B ++
        (if res.success % B = 0 then [] else [res.success % B]) := by
  rw [process_csv_eq_runPure] at hrun
  have hres : res = runPure B st p rows k m completion := by cases hrun; rfl
  subst hres
  unfold runPure
  simp only
  set s' := completion.foldl
    (fun s t => drainStep B p s (taskResult st t))
    ⟨0, schedFailures (sliceRows rows k m), [], []⟩ with hs'
  have hinv : BatchInv B s' :=
    drainFold_batchInv B p st hB completion _ ⟨by simp, by simp [batchSizes], hB⟩
  obtain ⟨h1, h2, h3⟩ := hinv
  have hdiv : s'.success / B = s'.persistLog.length := by
    rw [h1, Nat.mul_add_div (by omega), Nat.div_eq_of_lt h3, Nat.add_zero]
  have hmod : s'.success % B = s'.buffer.length := by
    rw [h1, Nat.mul_add_mod, Nat.mod_eq_of_lt h3]
  have hbatch : ∀ log : List (List PointStruct × Bool),
      (log.map Prod.fst).map List.length = batchSizes log := by
    intro log
    rw [List.map_map]
    rfl
  unfold finalFlush
  by_cases hemp : s'.buffer.isEmpty
  · rw [if_pos hemp]
    have hbl : s'.buffer.length = 0 := by
      rw [List.isEmpty_iff] at hemp
      rw [hemp]
      rfl
    simp only [RunResult.batches, RunResult.success]
    rw [hbatch, h2, hdiv, hmod, hbl, if_pos rfl, List.append_nil]
  · rw [if_neg hemp]
    have hbl : s'.buffer.length ≠ 0 := by
      intro h0
      rw [List.isEmpty_iff] at hemp
      exact hemp (List.eq_nil_of_length_eq_zero h0)
    simp only [RunResult.batches, RunResult.success]
    rw [List.map_append, List.map_append, hbatch, h2, hdiv, hmod, if_neg hbl]
    dsimp only [List.map_cons, List.map_nil]

/-- C3 witness: three successes with `B = 2` give batch sizes `[2, 1]`. -/
theorem batch_flush_schedule_witness :
    (1 ≤ 2 ∧
      process_csv 2 stagesAllOk persistOk (.ok [sampleRow, sampleRow, sampleRow])
        (.ok ()) 0 none
        [(0, sampleRow), (1, sampleRow), (2, sampleRow)] =
        .ok ⟨3, 0, [([⟨0, [1], "img", "u"⟩, ⟨1, [1], "img", "u"⟩], true),
                    ([⟨2, [1], "img", "u"⟩], true)]⟩) ∧
    (RunResult.batches ⟨3, 0, [([⟨0, [1], "img", "u"⟩, ⟨1, [1], "img", "u"⟩], true),
        ([⟨2, [1], "img", "u"⟩], true)]⟩).map List.length =
      List.replicate (3 / 2) 2 ++ (if 3 % 2 = 0 then [] else [3 % 2]) :=
  ⟨⟨by omega, rfl⟩,
    batch_flush_schedule 2 stagesAllOk persistOk [sampleRow, sampleRow, sampleRow] 0 none
      [(0, sampleRow), (1, sampleRow), (2, sampleRow)] _ (by omega) rfl⟩

/-! ### C5: the sink's result is ignored -/

/-- Two drain states agreeing on everything the pipeline ever reads
back: counts, buffer, and which batches were sent (the `Bool` results may
differ — the code discards them). -/
def SameCore (s s' : DrainState) : Prop :=
  s.success = s'.success ∧ s.failure = s'.failure ∧ s.buffer = s'.buffer ∧
    s.persistLog.map Prod.fst = s'.persistLog.map Prod.fst

theorem drainStep_sameCore (B : Nat) (p q : List PointStruct → Bool)
    (s s' : DrainState) (r : Option PointStruct) (h : SameCore s s') :
    SameCore (drainStep B p s r) (drainStep B q s' r) := by
  obtain ⟨h1, h2, h3, h4⟩ := h
  cases r with
  | none => exact ⟨by dsimp only [drainStep]; omega, by dsimp only [drainStep]; omega,
      h3, h4⟩
  | some pt =>
    unfold drainStep
    dsimp only
    rw [h3]
    by_cases hge : (s'.buffer ++ [pt]).length ≥ B
    · rw [if_pos hge, if_pos hge]
      refine ⟨by dsimp only; omega, h2, rfl, ?_⟩
      dsimp only
      rw [List.map_append, List.map_append, h4]
      dsimp only [List.map_cons, List.map_nil]
    · rw [if_neg hge, if_neg hge]
      exact ⟨by dsimp only; omega, h2, rfl, h4⟩

theorem drainFold_sameCore (B : Nat) (p q : List PointStruct → Bool) (st : Stages) :
    ∀ (ts : List (Nat × Row)) (s s' : DrainState), SameCore s s' →
      SameCore (ts.foldl (fun s t => drainStep B p s (taskResult st t)) s)
        (ts.foldl (fun s t => drainStep B q s (taskResult st t)) s')
  | [], _, _, h => h
  | _ :: ts, s, s', h =>
    drainFold_sameCore B p q st ts _ _ (drainStep_sameCore B p q s s' _ h)

theorem finalFlush_sameCore (p q : List PointStruct → Bool) (s s' : DrainState)
    (h : SameCore s s') : SameCore (finalFlush p s) (finalFlush q s') := by
  obtain ⟨h1, h2, h3, h4⟩ := h
  unfold finalFlush
  rw [h3]
  by_cases hemp : s'.buffer.isEmpty
  · rw [if_pos hemp, if_pos hemp]
    exact ⟨h1, h2, h3, h4⟩
  · rw [if_neg hemp, if_neg hemp]
    refine ⟨h1, h2, rfl, ?_⟩
    dsimp only
    rw [List.map_append, List.map_append, h4]
    dsimp only [List.map_cons, List.map_nil]

/-- C5: a rejected batch (`upsert_points` returning `False`, which is also
what it returns when the client raises) changes nothing the run reports:
for any sink behavior `p`, the final `success_count`, `failure_count`, and
the sequence of batches sent — so in particular no retry of any batch —
are identical to the run over the always-succeeding sink. -/
theorem persist_failure_does_not_change_run (B : Nat) (st : Stages)
    (p : List PointStruct → Bool) (rows : List Row) (k : Nat) (m : Option Nat)
    (completion : List (Nat × Row)) :
    ∃ r r', process_csv B st p (.ok rows) (.ok ()) k m completion = .ok r ∧
      process_csv B st persistOk (.ok rows) (.ok ()) k m completion = .ok r' ∧
      r.success = r'.success ∧ r.failure = r'.failure ∧ r.batches = r'.batches := by
  refine ⟨runPure B st p rows k m completion, runPure B st persistOk rows k m completion,
    process_csv_eq_runPure .., process_csv_eq_runPure .., ?_⟩
  have h := finalFlush_sameCore p persistOk
    (completion.foldl (fun s t => drainStep B p s (taskResult st t))
      ⟨0, schedFailures (sliceRows rows k m), [], []⟩)
    (completion.foldl (fun s t => drainStep B persistOk s (taskResult st t))
      ⟨0, schedFailures (sliceRows rows k m), [], []⟩)
    (drainFold_sameCore B p persistOk st completion _ _ ⟨rfl, rfl, rfl, rfl⟩)
  obtain ⟨h1, h2, _, h4⟩ := h
  exact ⟨h1, h2, h4⟩

/-! ### C4: resume slicing -/

/-- Stated from the spec's words (not from the source): the original
indices the claim says a run with `start_offset = k`, `max_items = m`
processes, namely `[k, min(k + m, T))`, or `[k, T)` when the cap is
omitted. -/
def claimedIndices (k : Nat) (m : Option Nat) (T : Nat) : List Nat :=
  match m with
  | none => List.range' k (T - k)
  | some mv => List.range' k (min (k + mv) T - k)

theorem range'_take : ∀ (m s n : Nat), (List.range' s n).take m = List.range' s (min m n)
  | 0, _, _ => by simp
  | _ + 1, _, 0 => by simp
  | m + 1, s, n + 1 => by
    rw [List.range'_succ, List.take_succ_cons, range'_take m (s + 1) n,
      Nat.succ_min_succ, List.range'_succ]

theorem range'_drop : ∀ (m s n : Nat), (List.range' s n).drop m = List.range' (s + m) (n - m)
  | 0, _, _ => by simp
  | _ + 1, _, 0 => by simp
  | m + 1, s, n + 1 => by
    rw [List.range'_succ, List.drop_succ_cons, range'_drop m (s + 1) n]
    congr 1 <;> omega

theorem sliceRows_none (rows : List Row) (k : Nat) :
    sliceRows rows k none = (if k > 0 then rows.enum.drop k else rows.enum) := rfl

theorem sliceRows_some (rows : List Row) (k mv : Nat) :
    sliceRows rows k (some mv) =
      (if mv = 0 then (if k > 0 then rows.enum.drop k else rows.enum)
       else (if k > 0 then rows.enum.drop k else rows.enum).take mv) := rfl

theorem afterStart_map_fst (rows : List Row) (k : Nat) :
    (if k > 0 then rows.enum.drop k else rows.enum).map Prod.fst =
      List.range' k (rows.length - k) := by
  by_cases hk : k > 0
  · rw [if_pos hk, List.map_drop, List.enum_map_fst, List.range_eq_range', range'_drop]
    simp
  · have hk0 : k = 0 := by omega
    subst hk0
    rw [if_neg hk, List.enum_map_fst, List.range_eq_range', Nat.sub_zero]

theorem sliceRows_map_fst (rows : List Row) (k : Nat) (m : Option Nat)
    (hm : m ≠ some 0) :
    (sliceRows rows k m).map Prod.fst = claimedIndices k m rows.length := by
  cases m with
  | none =>
    rw [sliceRows_none, afterStart_map_fst]
    rfl
  | some mv =>
    have hmv : ¬ mv = 0 := fun h0 => hm (by rw [h0])
    rw [sliceRows_some, if_neg hmv, List.map_take, afterStart_map_fst, range'_take]
    show List.range' k (min mv (rows.length - k)) =
      List.range' k (min (k + mv) rows.length - k)
    have harg : min (k + mv) rows.length - k = min mv (rows.length - k) := by omega
    rw [harg]

theorem sliceRows_sublist (rows : List Row) (k : Nat) (m : Option Nat) :
    (sliceRows rows k m).Sublist rows.enum := by
  have hbase : (if k > 0 then rows.enum.drop k else rows.enum).Sublist rows.enum := by
    by_cases hk : k > 0
    · rw [if_pos hk]; exact List.drop_sublist k _
    · rw [if_neg hk]
  cases m with
  | none => rw [sliceRows_none]; exact hbase
  | some mv =>
    rw [sliceRows_some]
    by_cases h0 : mv = 0
    · rw [if_pos h0]; exact hbase
    · rw [if_neg h0]; exact (List.take_sublist mv _).trans hbase

/-- Every sliced item pairs an original index with the row actually at
that index in the full source. -/
theorem sliceRows_getElem (rows : List Row) (k : Nat) (m : Option Nat) :
    ∀ pr ∈ sliceRows rows k m, rows[pr.1]? = some pr.2 := by
  intro pr hpr
  exact List.mem_enum_iff_getElem?.mp ((sliceRows_sublist rows k m).subset hpr)

/-- The success path of `process_single_image` stamps the artifact with
the item's original index: `PointStruct(id=idx, ...)`. -/
theorem taskResult_id (st : Stages) (t : Nat × Row) (pt : PointStruct)
    (h : taskResult st t = some pt) : pt.id = t.1 := by
  unfold taskResult process_single_image process_single_image_body at h
  cases hd : st.download t.1 t.2.url.getStr <;> rw [hd] at h <;> dsimp only at h
  case raised => exact Option.noConfusion h
  case failed => exact Option.noConfusion h
  case ok uri =>
    cases he : st.embed t.1 uri <;> rw [he] at h <;> dsimp only at h
    case raised => exact Option.noConfusion h
    case failed => exact Option.noConfusion h
    case ok v => cases h; rfl

/-- C4 counterexample: over a one-row source with `start_offset = 0` and
`max_items = 0`, the claim's range `[0, min(0+0, 1)) = ∅` disagrees with
the code, which ignores the falsy cap and processes original index 0. -/
theorem resume_slice_claim_fails_for_zero_cap :
    (sliceRows [sampleRow] 0 (some 0)).map Prod.fst = [0] ∧
    claimedIndices 0 (some 0) 1 = [] ∧
    ¬ (sliceRows [sampleRow] 0 (some 0)).map Prod.fst = claimedIndices 0 (some 0) 1 := by
  refine ⟨rfl, rfl, ?_⟩
  intro h
  exact absurd h (by decide)

/-- C4 amended: for `max_items` omitted or `≥ 1` (a cap of 0 is falsy and
ignored, see the zero-cap claim), the run's work slice consists exactly of
the items with original index in `[k, min(k+m, T))` (resp. `[k, T)`), each
keeping its original index: the slice's indices are that range, each
sliced pair is the source row at that original index, and any artifact an
item produces carries that index as its id. -/
theorem resume_slice_processes_original_index_range (st : Stages) (rows : List Row)
    (k : Nat) (m : Option Nat) (hm : m ≠ some 0) :
    (sliceRows rows k m).map Prod.fst = claimedIndices k m rows.length ∧
    (∀ pr ∈ sliceRows rows k m, rows[pr.1]? = some pr.2) ∧
    (∀ pr ∈ sliceRows rows k m, ∀ pt, taskResult st pr = some pt → pt.id = pr.1) :=
  ⟨sliceRows_map_fst rows k m hm, sliceRows_getElem rows k m,
    fun pr _ pt hpt => taskResult_id st pr pt hpt⟩

/-- C4 amended, witness: a three-row source, `start_offset = 1`,
`max_items = 5`. -/
theorem resume_slice_processes_original_index_range_witness :
    ((some 5 : Option Nat) ≠ some 0) ∧
    ((sliceRows [sampleRow, sampleRow, sampleRow] 1 (some 5)).map Prod.fst =
        claimedIndices 1 (some 5) 3 ∧
      (∀ pr ∈ sliceRows [sampleRow, sampleRow, sampleRow] 1 (some 5),
        [sampleRow, sampleRow, sampleRow][pr.1]? = some pr.2) ∧
      (∀ pr ∈ sliceRows [sampleRow, sampleRow, sampleRow] 1 (some 5), ∀ pt,
        taskResult stagesAllOk pr = some pt → pt.id = pr.1)) :=
  ⟨by decide,
    resume_slice_processes_original_index_range stagesAllOk
      [sampleRow, sampleRow, sampleRow] 1 (some 5) (by decide)⟩

/-! ### C7 and C10: what reaches the sink -/

theorem drainStep_persisted (B : Nat) (p : List PointStruct → Bool)
    (s : DrainState) (r : Option PointStruct) :
    ((drainStep B p s r).persistLog.map Prod.fst).flatten ++ (drainStep B p s r).buffer =
      ((s.persistLog.map Prod.fst).flatten ++ s.buffer) ++ r.toList := by
  cases r with
  | none => dsimp only [drainStep, Option.toList]; rw [List.append_nil]
  | some pt =>
    unfold drainStep
    dsimp only [Option.toList]
    by_cases hge : (s.buffer ++ [pt]).length ≥ B
    · rw [if_pos hge]
      dsimp only
      rw [List.map_append, List.flatten_append]
      dsimp only [List.map_cons, List.map_nil]
      rw [List.flatten_cons, List.flatten_nil, List.append_nil, List.append_nil,
        List.append_assoc]
    · rw [if_neg hge]
      dsimp only
      rw [List.append_assoc]

theorem drainFold_persisted (B : Nat) (p : List PointStruct → Bool) (st : Stages) :
    ∀ (ts : List (Nat × Row)) (s : DrainState),
      (((ts.foldl (fun s t => drainStep B p s (taskResult st t)) s).persistLog.map
          Prod.fst).flatten ++
        (ts.foldl (fun s t => drainStep B p s (taskResult st t)) s).buffer) =
        ((s.persistLog.map Prod.fst).flatten ++ s.buffer) ++ ts.filterMap (taskResult st)
  | [], s => by rw [List.foldl_nil, List.filterMap_nil, List.append_nil]
  | t :: ts, s => by
    rw [List.foldl_cons, drainFold_persisted B p st ts, drainStep_persisted]
    cases h : taskResult st t with
    | none =>
      rw [List.filterMap_cons_none h]
      dsimp only [Option.toList]
      rw [List.append_nil]
    | some pt =>
      rw [List.filterMap_cons_some h]
      dsimp only [Option.toList]
      rw [List.append_assoc]
      rfl

theorem finalFlush_persisted (p : List PointStruct → Bool) (s : DrainState) :
    ((finalFlush p s).persistLog.map Prod.fst).flatten =
      (s.persistLog.map Prod.fst).flatten ++ s.buffer := by
  unfold finalFlush
  by_cases hemp : s.buffer.isEmpty
  · rw [if_pos hemp, List.isEmpty_iff.mp hemp, List.append_nil]
  · rw [if_neg hemp]
    dsimp only
    rw [List.map_append, List.flatten_append]
    dsimp only [List.map_cons, List.map_nil]
    rw [List.flatten_cons, List.flatten_nil, List.append_nil]

/-- Everything `process_csv` ever hands to the sink is exactly the list of
successful task results, in completion order. -/
theorem runPure_persisted (B : Nat) (st : Stages) (p : List PointStruct → Bool)
    (rows : List Row) (k : Nat) (m : Option Nat) (completion : List (Nat × Row)) :
    (runPure B st p rows k m completion).persisted =
      completion.filterMap (taskResult st) := by
  unfold runPure RunResult.persisted RunResult.batches
  dsimp only
  rw [finalFlush_persisted, drainFold_persisted]
  dsimp only [List.map_nil, List.flatten_nil]
  rw [List.nil_append, List.nil_append]

theorem runPure_success (B : Nat) (st : Stages) (p : List PointStruct → Bool)
    (rows : List Row) (k : Nat) (m : Option Nat) (completion : List (Nat × Row)) :
    (runPure B st p rows k m completion).success =
      (completion.filter (fun t => (taskResult st t).isSome)).length := by
  unfold runPure
  dsimp only
  rw [finalFlush_success, drainFold_success, Nat.zero_add, List.countP_eq_length_filter]

theorem runPure_failure (B : Nat) (st : Stages) (p : List PointStruct → Bool)
    (rows : List Row) (k : Nat) (m : Option Nat) (completion : List (Nat × Row)) :
    (runPure B st p rows k m completion).failure =
      schedFailures (sliceRows rows k m) +
        completion.countP (fun t => (taskResult st t).isNone) := by
  unfold runPure
  dsimp only
  rw [finalFlush_failure, drainFold_failure]

theorem filterMap_taskResult_map_id (st : Stages) :
    ∀ ts : List (Nat × Row),
      (ts.filterMap (taskResult st)).map PointStruct.id =
        (ts.filter (fun t => (taskResult st t).isSome)).map Prod.fst
  | [] => rfl
  | t :: ts => by
    cases h : taskResult st t with
    | none =>
      rw [List.filterMap_cons_none h, List.filter_cons_of_neg (by simp [h]),
        filterMap_taskResult_map_id st ts]
    | some pt =>
      rw [List.filterMap_cons_some h, List.filter_cons_of_pos (by rw [h]; rfl),
        List.map_cons, List.map_cons, filterMap_taskResult_map_id st ts,
        taskResult_id st t pt h]

theorem sliceRows_keys_nodup (rows : List Row) (k : Nat) (m : Option Nat) :
    ((sliceRows rows k m).map Prod.fst).Nodup :=
  List.Nodup.sublist ((sliceRows_sublist rows k m).map Prod.fst)
    (List.nodup_enum_map_fst rows)

theorem eq_of_mem_of_keys_nodup :
    ∀ {l : List (Nat × Row)}, (l.map Prod.fst).Nodup →
      ∀ {i : Nat} {a b : Row}, (i, a) ∈ l → (i, b) ∈ l → a = b := by
  intro l
  induction l with
  | nil => intro _ i a b ha; cases ha
  | cons c l ih =>
    intro h i a b ha hb
    rw [List.map_cons, List.nodup_cons] at h
    cases ha with
    | head =>
      cases hb with
      | head => rfl
      | tail _ hb' => exact absurd (List.mem_map_of_mem Prod.fst hb') h.1
    | tail _ ha' =>
      cases hb with
      | head => exact absurd (List.mem_map_of_mem Prod.fst ha') h.1
      | tail _ hb' => exact ih h.2 ha' hb'

/-- The task list's keys, and hence the completion order's keys, are the
distinct original indices of the slice. -/
theorem completion_keys_nodup (rows : List Row) (k : Nat) (m : Option Nat)
    (completion : List (Nat × Row))
    (hperm : completion.Perm (tasksOf (sliceRows rows k m))) :
    (completion.map Prod.fst).Nodup := by
  have htasks : ((tasksOf (sliceRows rows k m)).map Prod.fst).Nodup :=
    List.Nodup.sublist ((List.filter_sublist _).map Prod.fst)
      (sliceRows_keys_nodup rows k m)
  exact (hperm.map Prod.fst).nodup_iff.mpr htasks

/-- C7: an item that fails Transform or Embed contributes no artifact: no
persisted point carries its index; every persisted point is the successful
result of a distinct completed task and carries that task's original index;
persisted ids are pairwise distinct across the whole run; and the success
count is exactly the number of successful tasks (no double counting). -/
theorem persisted_ids_unique_and_failed_items_absent (B : Nat) (st : Stages)
    (p : List PointStruct → Bool) (rows : List Row) (k : Nat) (m : Option Nat)
    (completion : List (Nat × Row)) (res : RunResult)
    (hperm : completion.Perm (tasksOf (sliceRows rows k m)))
    (hrun : process_csv B st p (.ok rows) (.ok ()) k m completion = .ok res) :
    (res.persisted.map PointStruct.id).Nodup ∧
    (∀ pt ∈ res.persisted, ∃ t ∈ completion, taskResult st t = some pt ∧ pt.id = t.1) ∧
    (∀ t ∈ completion, taskResult st t = none → ∀ pt ∈ res.persisted, pt.id ≠ t.1) ∧
    res.success = (completion.filter (fun t => (taskResult st t).isSome)).length := by
  rw [process_csv_eq_runPure] at hrun
  have hres : res = runPure B st p rows k m completion := by cases hrun; rfl
  subst hres
  have hkeys := completion_keys_nodup rows k m completion hperm
  have hpers := runPure_persisted B st p rows k m completion
  refine ⟨?_, ?_, ?_, runPure_success ..⟩
  · rw [hpers, filterMap_taskResult_map_id]
    exact List.Nodup.sublist ((List.filter_sublist _).map Prod.fst) hkeys
  · intro pt hpt
    rw [hpers] at hpt
    obtain ⟨t, ht, hsome⟩ := List.mem_filterMap.mp hpt
    exact ⟨t, ht, hsome, taskResult_id st t pt hsome⟩
  · intro t ht hnone pt hpt hid
    rw [hpers] at hpt
    obtain ⟨t', ht', hsome⟩ := List.mem_filterMap.mp hpt
    have hid' : pt.id = t'.1 := taskResult_id st t' pt hsome
    have hfst : t'.1 = t.1 := by rw [← hid', hid]
    have hrow : t'.2 = t.2 := by
      apply eq_of_mem_of_keys_nodup hkeys (i := t.1)
      · rw [← hfst]; exact ht'
      · exact ht
    have : t' = t := Prod.ext hfst hrow
    rw [this, hnone] at hsome
    exact Option.noConfusion hsome

/-- Stage oracle for the C7 witness: the item with original index 1 fails
its download, the rest succeed. -/
def stagesFailAt1 : Stages :=
  ⟨fun i _ => if i = 1 then .failed else .ok "uri", fun _ _ => .ok [1]⟩

/-- C7 witness: three items draining out of order, item 1 failing. -/
theorem persisted_ids_unique_and_failed_items_absent_witness :
    ([(2, sampleRow), (0, sampleRow), (1, sampleRow)] : List (Nat × Row)).Perm
      (tasksOf (sliceRows [sampleRow, sampleRow, sampleRow] 0 none)) ∧
    ((((RunResult.persisted ⟨2, 1, [([⟨2, [1], "img", "u"⟩, ⟨0, [1], "img", "u"⟩], true)]⟩).map
        PointStruct.id).Nodup) ∧
      (∀ pt ∈ RunResult.persisted ⟨2, 1, [([⟨2, [1], "img", "u"⟩, ⟨0, [1], "img", "u"⟩], true)]⟩,
        ∃ t ∈ ([(2, sampleRow), (0, sampleRow), (1, sampleRow)] : List (Nat × Row)),
          taskResult stagesFailAt1 t = some pt ∧ pt.id = t.1) ∧
      (∀ t ∈ ([(2, sampleRow), (0, sampleRow), (1, sampleRow)] : List (Nat × Row)),
        taskResult stagesFailAt1 t = none →
          ∀ pt ∈ RunResult.persisted ⟨2, 1, [([⟨2, [1], "img", "u"⟩, ⟨0, [1], "img", "u"⟩], true)]⟩,
            pt.id ≠ t.1) ∧
      (2 : Nat) = (([(2, sampleRow), (0, sampleRow), (1, sampleRow)] : List (Nat × Row)).filter
        (fun t => (taskResult stagesFailAt1 t).isSome)).length) := by
  have h1 : ([(2, sampleRow), (0, sampleRow), (1, sampleRow)] : List (Nat × Row)).Perm
      (tasksOf (sliceRows [sampleRow, sampleRow, sampleRow] 0 none)) := by decide
  have h2 : process_csv 2 stagesFailAt1 persistOk (.ok [sampleRow, sampleRow, sampleRow])
      (.ok ()) 0 none
      [(2, sampleRow), (0, sampleRow), (1, sampleRow)] =
        .ok ⟨2, 1, [([⟨2, [1], "img", "u"⟩, ⟨0, [1], "img", "u"⟩], true)]⟩ := rfl
  exact ⟨h1, persisted_ids_unique_and_failed_items_absent 2 stagesFailAt1 persistOk
    [sampleRow, sampleRow, sampleRow] 0 none
    [(2, sampleRow), (0, sampleRow), (1, sampleRow)] _ h1 h2⟩

/-- C10: a sliced item whose url cell is missing, NaN, non-string, or
whitespace-only is rejected by the scheduling guard: it is never among the
scheduled tasks (so no task is created for it, it never runs a stage or
holds a pool permit), it is counted in the failures recorded at scheduling
time — the run's final failure count decomposes as these scheduling
failures plus the failed tasks — and no persisted point carries its
index. -/
theorem invalid_url_fails_at_scheduling (B : Nat) (st : Stages)
    (p : List PointStruct → Bool) (rows : List Row) (k : Nat) (m : Option Nat)
    (completion : List (Nat × Row)) (res : RunResult) (i : Nat) (row : Row)
    (hperm : completion.Perm (tasksOf (sliceRows rows k m)))
    (hrun : process_csv B st p (.ok rows) (.ok ()) k m completion = .ok res)
    (hmem : (i, row) ∈ sliceRows rows k m)
    (hbad : row.url.valid = false) :
    ((i, row) ∉ tasksOf (sliceRows rows k m)) ∧
    ((i, row) ∉ completion) ∧
    1 ≤ schedFailures (sliceRows rows k m) ∧
    res.failure = schedFailures (sliceRows rows k m) +
      completion.countP (fun t => (taskResult st t).isNone) ∧
    ∀ pt ∈ res.persisted, pt.id ≠ i := by
  rw [process_csv_eq_runPure] at hrun
  have hres : res = runPure B st p rows k m completion := by cases hrun; rfl
  subst hres
  have hnotask : (i, row) ∉ tasksOf (sliceRows rows k m) := by
    intro hin
    have hv := (List.mem_filter.mp hin).2
    rw [hbad] at hv
    exact Bool.noConfusion hv
  refine ⟨hnotask, fun hin => hnotask (hperm.mem_iff.mp hin), ?_,
    runPure_failure .., ?_⟩
  · have hin : (i, row) ∈ (sliceRows rows k m).filter (fun ir => !ir.2.url.valid) :=
      List.mem_filter.mpr ⟨hmem, by rw [hbad]; rfl⟩
    exact List.length_pos_of_mem hin
  · intro pt hpt hid
    rw [runPure_persisted] at hpt
    obtain ⟨t, ht, hsome⟩ := List.mem_filterMap.mp hpt
    have hfst : t.1 = i := by rw [← taskResult_id st t pt hsome, hid]
    have htask : t ∈ tasksOf (sliceRows rows k m) := hperm.mem_iff.mp ht
    have hitems : t ∈ sliceRows rows k m := (List.mem_filter.mp htask).1
    have hvalid : t.2.url.valid = true := (List.mem_filter.mp htask).2
    have hrow : t.2 = row := by
      apply eq_of_mem_of_keys_nodup (sliceRows_keys_nodup rows k m) (i := i)
      · rw [← hfst]; exact hitems
      · exact hmem
    rw [hrow, hbad] at hvalid
    exact Bool.noConfusion hvalid

/-- A row whose url cell is whitespace only. -/
def blankRow : Row := ⟨"blank", .str " "⟩

/-- C10 witness: a two-row source whose second row has a whitespace-only
url; with `batch_size = 1` the run persists only the valid row's artifact
and reports one scheduling failure. -/
theorem invalid_url_fails_at_scheduling_witness :
    ((1, blankRow) ∉ tasksOf (sliceRows [sampleRow, blankRow] 0 none)) ∧
    ((1, blankRow) ∉ ([(0, sampleRow)] : List (Nat × Row))) ∧
    1 ≤ schedFailures (sliceRows [sampleRow, blankRow] 0 none) ∧
    (RunResult.failure ⟨1, 1, [([⟨0, [1], "img", "u"⟩], true)]⟩) =
      schedFailures (sliceRows [sampleRow, blankRow] 0 none) +
        ([(0, sampleRow)] : List (Nat × Row)).countP
          (fun t => (taskResult stagesAllOk t).isNone) ∧
    ∀ pt ∈ RunResult.persisted ⟨1, 1, [([⟨0, [1], "img", "u"⟩], true)]⟩, pt.id ≠ 1 :=
  invalid_url_fails_at_scheduling 1 stagesAllOk persistOk [sampleRow, blankRow] 0 none
    [(0, sampleRow)] ⟨1, 1, [([⟨0, [1], "img", "u"⟩], true)]⟩ 1 blankRow
    (by decide) rfl (by decide) (by decide)

/-! ### C6: admission-pool bounds

Which task progresses next depends on I/O latency, so the semaphore
discipline of `process_single_image` is modelled as a small-step
transition system over a bag of per-task phases and the two
`asyncio.Semaphore` counters; the bound is proved for every reachable
state, i.e. every interleaving. -/

/-- Phase of one task of `process_single_image` relative to the two
semaphores: not yet at `async with download_sem`; inside the download
block (holding a download permit); between the two blocks; inside the
`async with embedding_sem` block (holding an embed permit); finished —
whether with a point, a `None`, or a caught exception, every exit path
leaves the `async with` blocks and so releases any held permit. -/
inductive Phase where
  | pending
  | downloading
  | downloaded
  | embedding
  | done
  deriving DecidableEq, Repr

/-- Scheduler-visible state of a run: the bag of task phases and the two
semaphores' current free-permit counters. -/
structure PoolState where
  phases : Multiset Phase
  dAvail : Nat
  eAvail : Nat
  deriving DecidableEq

/-- The state right after task creation: `n` scheduled tasks, both
semaphores at their configured capacities
(`asyncio.Semaphore(concurrent_downloads)`,
`asyncio.Semaphore(concurrent_embeddings)`). -/
def initPoolState (n D E : Nat) : PoolState :=
  ⟨Multiset.replicate n .pending, D, E⟩

/-- One cooperative-scheduler step. `acquire` only proceeds when the
semaphore's counter is positive (pattern `d + 1`) and decrements it;
leaving an `async with` block — on success, a `None` result, or an
exception unwinding into the outer `try/except` — increments it back. -/
inductive PoolStep : PoolState → PoolState → Prop where
  | startDownload (r : Multiset Phase) (d e : Nat) :
      PoolStep ⟨.pending ::ₘ r, d + 1, e⟩ ⟨.downloading ::ₘ r, d, e⟩
  | downloadOk (r : Multiset Phase) (d e : Nat) :
      PoolStep ⟨.downloading ::ₘ r, d, e⟩ ⟨.downloaded ::ₘ r, d + 1, e⟩
  | downloadFail (r : Multiset Phase) (d e : Nat) :
      PoolStep ⟨.downloading ::ₘ r, d, e⟩ ⟨.done ::ₘ r, d + 1, e⟩
  | startEmbed (r : Multiset Phase) (d e : Nat) :
      PoolStep ⟨.downloaded ::ₘ r, d, e + 1⟩ ⟨.embedding ::ₘ r, d, e⟩
  | finishEmbed (r : Multiset Phase) (d e : Nat) :
      PoolStep ⟨.embedding ::ₘ r, d, e⟩ ⟨.done ::ₘ r, d, e + 1⟩

/-- Number of tasks that have acquired but not released the download
semaphore. -/
def downloadHolders (s : PoolState) : Nat := s.phases.count .downloading

/-- Number of tasks that have acquired but not released the embedding
semaphore. -/
def embedHolders (s : PoolState) : Nat := s.phases.count .embedding

/-- States a run over `n` tasks with capacities `D`, `E` can be in. -/
def Reachable (n D E : Nat) (s : PoolState) : Prop :=
  Relation.ReflTransGen PoolStep (initPoolState n D E) s

/-- Semaphore accounting: permits held plus permits free is the
capacity, for each pool independently. -/
def PoolInv (D E : Nat) (s : PoolState) : Prop :=
  downloadHolders s + s.dAvail = D ∧ embedHolders s + s.eAvail = E

theorem poolStep_inv (D E : Nat) (s s' : PoolState) (hstep : PoolStep s s')
    (h : PoolInv D E s) : PoolInv D E s' := by
  obtain ⟨h1, h2⟩ := h
  cases hstep <;>
    (unfold PoolInv downloadHolders embedHolders at *) <;>
    (simp only [Multiset.count_cons] at *) <;>
    (simp at *) <;> omega

/-- C6: in every state any interleaving can reach, at most
`concurrent_downloads` tasks hold a download permit and at most
`concurrent_embeddings` tasks hold an embedding permit. -/
theorem pool_capacity_never_exceeded (n D E : Nat) (s : PoolState)
    (hreach : Reachable n D E s) :
    downloadHolders s ≤ D ∧ embedHolders s ≤ E := by
  have hinv : PoolInv D E s := by
    induction hreach with
    | refl =>
      constructor <;>
        simp [initPoolState, downloadHolders, embedHolders, Multiset.count_replicate]
    | tail _ hstep ih => exact poolStep_inv D E _ _ hstep ih
  obtain ⟨h1, h2⟩ := hinv
  omega

/-- C6 witness: two tasks, both capacities 1, after one task entered the
download block. -/
theorem pool_capacity_never_exceeded_witness :
    downloadHolders ⟨.downloading ::ₘ {Phase.pending}, 0, 1⟩ ≤ 1 ∧
    embedHolders ⟨.downloading ::ₘ {Phase.pending}, 0, 1⟩ ≤ 1 :=
  pool_capacity_never_exceeded 2 1 1 ⟨.downloading ::ₘ {Phase.pending}, 0, 1⟩
    (Relation.ReflTransGen.single (PoolStep.startDownload {Phase.pending} 0 1))

end ImagePipeline
